import Mathlib

/-!
Shallow embedding of the `word_count` package (bebe3/office-wordcount):
`src/word_count/patterns.py`, `src/word_count/counter.py` and
`src/word_count/statistics.py`.

Texts are modelled as `List Char` (a Python `str` is a sequence of code
points; `len` counts code points).  Each compiled regex pattern of
`patterns.py` is a single character class (possibly with a `+` repetition),
so its action is fully described by a `Char → Bool` membership predicate:

* `re.sub(pattern, "", text)` for a class-plus pattern removes exactly the
  characters belonging to the class, i.e. it is `List.filter` with the
  negated predicate;
* `finditer` for a class-plus pattern yields the maximal runs of
  consecutive class characters (regex matching is leftmost and greedy),
  modelled by `runLengths`, which returns the list of maximal-run lengths;
* `finditer` for a single-character class yields one match per occurrence,
  so counting matches is `List.countP`.

The Unicode script/block data (`\p{Script=...}`, `\p{Block=...}`, `\p{Zs}`
and the `\s` class, which in the `regex` library's Unicode mode is the
White_Space property) is embedded as explicit code-point range tables
taken from the Unicode character database (Scripts.txt / Blocks.txt /
PropList.txt).
-/

namespace WordCount

/-- Membership of a code point in a list of inclusive ranges of code points. -/
def inRanges (rs : List (Nat × Nat)) (c : Char) : Bool :=
  rs.any (fun r => decide (r.1 ≤ c.toNat) && decide (c.toNat ≤ r.2))

/-- Ranges of `\p{Script=Han}` (Unicode Scripts.txt). -/
def hanRanges : List (Nat × Nat) :=
  [(0x2E80, 0x2E99), (0x2E9B, 0x2EF3), (0x2F00, 0x2FD5), (0x3005, 0x3005),
   (0x3007, 0x3007), (0x3021, 0x3029), (0x3038, 0x303B), (0x3400, 0x4DBF),
   (0x4E00, 0x9FFF), (0xF900, 0xFA6D), (0xFA70, 0xFAD9), (0x16FE2, 0x16FE3),
   (0x16FF0, 0x16FF1), (0x20000, 0x2A6DF), (0x2A700, 0x2B739),
   (0x2B740, 0x2B81D), (0x2B820, 0x2CEA1), (0x2CEB0, 0x2EBE0),
   (0x2F800, 0x2FA1D), (0x30000, 0x3134A), (0x31350, 0x323AF)]

/-- Ranges of `\p{Script=Hiragana}` (Unicode Scripts.txt). -/
def hiraganaRanges : List (Nat × Nat) :=
  [(0x3041, 0x3096), (0x309D, 0x309F), (0x1B001, 0x1B11F), (0x1B132, 0x1B132),
   (0x1B150, 0x1B152), (0x1F200, 0x1F200)]

/-- Ranges of `\p{Script=Katakana}` (Unicode Scripts.txt). -/
def katakanaRanges : List (Nat × Nat) :=
  [(0x30A1, 0x30FA), (0x30FD, 0x30FF), (0x31F0, 0x31FF), (0x32D0, 0x32FE),
   (0x3300, 0x3357), (0xFF66, 0xFF6F), (0xFF71, 0xFF9D), (0x1AFF0, 0x1AFF3),
   (0x1AFF5, 0x1AFFB), (0x1AFFD, 0x1AFFE), (0x1B000, 0x1B000),
   (0x1B120, 0x1B122), (0x1B155, 0x1B155), (0x1B164, 0x1B167)]

/-- Ranges of `\p{Script=Hangul}` (Unicode Scripts.txt). -/
def hangulRanges : List (Nat × Nat) :=
  [(0x1100, 0x11FF), (0x302E, 0x302F), (0x3131, 0x318E), (0x3200, 0x321E),
   (0x3260, 0x327E), (0xA960, 0xA97C), (0xAC00, 0xD7A3), (0xD7B0, 0xD7C6),
   (0xD7CB, 0xD7FB), (0xFFA0, 0xFFBE), (0xFFC2, 0xFFC7), (0xFFCA, 0xFFCF),
   (0xFFD2, 0xFFD7), (0xFFDA, 0xFFDC)]

/-- Ranges of `\p{Script=Bopomofo}` (Unicode Scripts.txt). -/
def bopomofoRanges : List (Nat × Nat) :=
  [(0x02EA, 0x02EB), (0x3105, 0x312F), (0x31A0, 0x31BF)]

/-- Ranges of the Unicode blocks enumerated in `ASIAN_PATTERN`
(`patterns.py` lines 27-39): Halfwidth_and_Fullwidth_Forms,
CJK_Symbols_and_Punctuation, Enclosed_CJK_Letters_and_Months,
CJK_Compatibility, CJK_Compatibility_Forms, Vertical_Forms,
Kangxi_Radicals, CJK_Radicals_Supplement,
Ideographic_Symbols_and_Punctuation, Katakana_Phonetic_Extensions
(Unicode Blocks.txt).  Enclosed_Alphanumerics (0x2460-0x24FF) is
deliberately absent, as in the source. -/
def asianBlockRanges : List (Nat × Nat) :=
  [(0xFF00, 0xFFEF), (0x3000, 0x303F), (0x3200, 0x32FF), (0x3300, 0x33FF),
   (0xFE30, 0xFE4F), (0xFE10, 0xFE1F), (0x2F00, 0x2FDF), (0x2E80, 0x2EFF),
   (0x16FE0, 0x16FFF), (0x31F0, 0x31FF)]

/-- Character class of `ASIAN_PATTERN` / `ASIANS` (`patterns.py`): the
union of the five scripts, the ten blocks, and the two individual
characters U+30FB (middle dot) and U+30FC (prolonged sound mark). -/
def isAsian (c : Char) : Bool :=
  inRanges hanRanges c || inRanges hiraganaRanges c ||
  inRanges katakanaRanges c || inRanges hangulRanges c ||
  inRanges bopomofoRanges c || inRanges asianBlockRanges c ||
  decide (c.toNat = 0x30FB) || decide (c.toNat = 0x30FC)

/-- Ranges of `\p{Zs}` (Unicode space separators, UnicodeData.txt). -/
def zsRanges : List (Nat × Nat) :=
  [(0x0020, 0x0020), (0x00A0, 0x00A0), (0x1680, 0x1680), (0x2000, 0x200A),
   (0x202F, 0x202F), (0x205F, 0x205F), (0x3000, 0x3000)]

/-- Character class of `SPACES` (`patterns.py` line 12):
`[\p{Zs}\t\n\r\f\v]`. -/
def isSpacesChar (c : Char) : Bool :=
  inRanges zsRanges c || decide (0x09 ≤ c.toNat && c.toNat ≤ 0x0D)

/-- Character class of the `regex` library's `\s` in Unicode mode: the
Unicode White_Space property (PropList.txt), used inside
`NON_ASIAN_WORDS` (`patterns.py` line 62).  It is `[\p{Zs}\t\n\r\f\v]`
together with U+0085 (NEL), U+2028 (line separator) and U+2029
(paragraph separator). -/
def isRegexSpace (c : Char) : Bool :=
  inRanges zsRanges c || decide (0x09 ≤ c.toNat && c.toNat ≤ 0x0D) ||
  decide (c.toNat = 0x85) || decide (c.toNat = 0x2028) ||
  decide (c.toNat = 0x2029)

/-- Character class of `BREAKS` (`patterns.py` line 15): `[\r\n]`. -/
def isBreakChar (c : Char) : Bool :=
  decide (c.toNat = 0x0D) || decide (c.toNat = 0x0A)

/-- Character class of `CHAR_EXCLUDES` (`patterns.py` lines 51-53):
U+FEFF (BOM), U+200B (ZWSP), U+FE00 to U+FE0F (variation selectors) and
U+E0100 to U+E01EF (variation selectors supplement). -/
def isCharExclude (c : Char) : Bool :=
  decide (c.toNat = 0xFEFF) || decide (c.toNat = 0x200B) ||
  decide (0xFE00 ≤ c.toNat && c.toNat ≤ 0xFE0F) ||
  decide (0xE0100 ≤ c.toNat && c.toNat ≤ 0xE01EF)

/-- Character class of `UNICODE_SEPARATORS` (`patterns.py` line 56):
U+2028 (line separator) and U+2029 (paragraph separator). -/
def isUnicodeSeparator (c : Char) : Bool :=
  decide (c.toNat = 0x2028) || decide (c.toNat = 0x2029)

/-- Character class of `NON_ASIAN_WORDS` (`patterns.py` line 62):
`[^{ASIAN_PATTERN}\s]`. -/
def isNonAsianWordChar (c : Char) : Bool :=
  !isAsian c && !isRegexSpace c

/-- Helper for `runLengths`: `cur` is the length of the run of `p`-characters
immediately before the remaining text. -/
def runLengthsAux (p : Char → Bool) (cur : Nat) : List Char → List Nat
  | [] => if cur = 0 then [] else [cur]
  | c :: cs =>
      if p c then runLengthsAux p (cur + 1) cs
      else if cur = 0 then runLengthsAux p 0 cs
      else cur :: runLengthsAux p 0 cs

/-- Lengths of the maximal runs of consecutive `p`-characters, in order:
the lengths of the matches produced by `finditer` of a class-plus regex. -/
def runLengths (p : Char → Bool) (t : List Char) : List Nat :=
  runLengthsAux p 0 t

/-- The value `sum(len(m.group()) for m in ASIANS.finditer(text))`
(`counter.py` lines 39 and 99). -/
def asianCharacters (t : List Char) : Nat :=
  (runLengths isAsian t).sum

/-- The value `sum(1 for _ in NON_ASIAN_WORDS.finditer(text))`
(`counter.py` lines 40 and 100). -/
def nonAsianWords (t : List Char) : Nat :=
  (runLengths isNonAsianWordChar t).length

/-- The value `sum(1 for _ in UNICODE_SEPARATORS.finditer(text))`
(`counter.py` lines 41 and 101); the pattern is a single-character class,
so each occurrence is one match. -/
def separatorWords (t : List Char) : Nat :=
  t.countP isUnicodeSeparator

/-- Embedding of `count_words` (`counter.py` lines 20-42). -/
def count_words (t : List Char) : Nat :=
  nonAsianWords t + asianCharacters t + separatorWords t

/-- Embedding of `count_characters` (`counter.py` lines 45-59):
`SPACES.sub("", text)` then `CHAR_EXCLUDES.sub("", stripped)`, then `len`. -/
def count_characters (t : List Char) : Nat :=
  ((t.filter (fun c => !isSpacesChar c)).filter
    (fun c => !isCharExclude c)).length

/-- Embedding of `count_characters_with_space` (`counter.py` lines 62-76):
`BREAKS.sub("", text)` then `CHAR_EXCLUDES.sub("", stripped)`, then `len`. -/
def count_characters_with_space (t : List Char) : Nat :=
  ((t.filter (fun c => !isBreakChar c)).filter
    (fun c => !isCharExclude c)).length

/-- Embedding of the frozen dataclass `Statistics` (`statistics.py`).
Python integers are unbounded, so the fields are `Int`. -/
structure Statistics where
  words : Int
  characters_no_space : Int
  characters_with_space : Int
  non_asian_words : Int
  asian_characters : Int
deriving DecidableEq, Repr

/-- Embedding of `Statistics.__add__` (`statistics.py` lines 49-68):
field-wise addition producing a new record. -/
def Statistics.add (a b : Statistics) : Statistics :=
  ⟨a.words + b.words,
   a.characters_no_space + b.characters_no_space,
   a.characters_with_space + b.characters_with_space,
   a.non_asian_words + b.non_asian_words,
   a.asian_characters + b.asian_characters⟩

instance : Add Statistics :=
  ⟨Statistics.add⟩

/-- The all-zero record. -/
def Statistics.zero : Statistics :=
  ⟨0, 0, 0, 0, 0⟩

/-- Embedding of `calculate_word_statistics` (`counter.py` lines 79-109). -/
def calculate_word_statistics (t : List Char) : Statistics :=
  ⟨(nonAsianWords t + asianCharacters t + separatorWords t : Nat),
   (count_characters t : Nat),
   (count_characters_with_space t : Nat),
   (nonAsianWords t : Nat),
   (asianCharacters t : Nat)⟩

/-- The non-Asian word count as the specification's words describe it: the
number of maximal runs of characters that are neither in the Asian class
nor in the `SPACES` whitespace set (category Zs, tab, newline, carriage
return, form feed, vertical tab).  This follows the specification text and
is compared against `nonAsianWords`, whose whitespace class is the regex
`\s` (Unicode White_Space). -/
def specNonAsianWords (t : List Char) : Nat :=
  (runLengths (fun c => !isAsian c && !isSpacesChar c) t).length

/-!  General lemmas about `runLengths` and counting. -/

/-- The maximal runs of `p`-characters cover exactly the `p`-characters:
the sum of the run lengths (plus the length `cur` of the pending run)
is the number of `p`-characters. -/
theorem sum_runLengthsAux (p : Char → Bool) (l : List Char) :
    ∀ cur : Nat, (runLengthsAux p cur l).sum = cur + l.countP p := by
  induction l with
  | nil =>
      intro cur
      by_cases h : cur = 0 <;> simp [runLengthsAux, h]
  | cons c cs ih =>
      intro cur
      by_cases hp : p c
      · simp [runLengthsAux, hp, List.countP_cons, ih]
        omega
      · by_cases h0 : cur = 0
        · simp [runLengthsAux, hp, h0, List.countP_cons, ih]
        · simp [runLengthsAux, hp, h0, List.countP_cons, ih]

/-- The sum of the maximal-run lengths of `p`-characters is the number of
`p`-characters in the text. -/
theorem sum_runLengths (p : Char → Bool) (l : List Char) :
    (runLengths p l).sum = l.countP p := by
  simpa using sum_runLengthsAux p l 0

/-- `asianCharacters` counts exactly the Asian characters of the text. -/
theorem asianCharacters_eq_countP (t : List Char) :
    asianCharacters t = t.countP isAsian :=
  sum_runLengths isAsian t

/-- The number of maximal runs is at most the number of `p`-characters
(each run is nonempty). -/
theorem length_runLengthsAux_le (p : Char → Bool) (l : List Char) :
    ∀ cur : Nat, (runLengthsAux p cur l).length ≤ min cur 1 + l.countP p := by
  induction l with
  | nil =>
      intro cur
      by_cases h : cur = 0
      · simp [runLengthsAux, h]
      · simp [runLengthsAux, h]
        omega
  | cons c cs ih =>
      intro cur
      by_cases hp : p c
      · have h1 := ih (cur + 1)
        simp [runLengthsAux, hp, List.countP_cons]
        omega
      · by_cases h0 : cur = 0
        · have h1 := ih 0
          simp [runLengthsAux, hp, h0, List.countP_cons]
          omega
        · have h1 := ih 0
          simp [runLengthsAux, hp, h0, List.countP_cons]
          omega

/-- The number of maximal `p`-runs is at most the number of `p`-characters. -/
theorem length_runLengths_le (p : Char → Bool) (l : List Char) :
    (runLengths p l).length ≤ l.countP p := by
  simpa using length_runLengthsAux_le p l 0

/-- Appending a non-`p` character does not change the run decomposition. -/
theorem runLengthsAux_append_notP (p : Char → Bool) (c : Char)
    (hc : p c = false) (l : List Char) :
    ∀ cur : Nat, runLengthsAux p cur (l ++ [c]) = runLengthsAux p cur l := by
  induction l with
  | nil =>
      intro cur
      by_cases h0 : cur = 0 <;> simp [runLengthsAux, hc, h0]
  | cons d ds ih =>
      intro cur
      by_cases hd : p d <;> simp [runLengthsAux, hd, ih]

/-- Three pairwise exclusive character classes jointly cover each position
at most once. -/
theorem countP_three_disjoint_le (p q r : Char → Bool)
    (hpq : ∀ c, p c = true → q c = false)
    (hpr : ∀ c, p c = true → r c = false)
    (hqr : ∀ c, q c = true → r c = false) :
    ∀ l : List Char, l.countP p + l.countP q + l.countP r ≤ l.length := by
  intro l
  induction l with
  | nil => simp
  | cons c cs ih =>
      have h1 := hpq c
      have h2 := hpr c
      have h3 := hqr c
      simp only [List.countP_cons, List.length_cons]
      cases hp : p c <;> cases hq : q c <;> cases hr : r c <;>
        simp_all <;> omega

/-!  Facts about the character classes, derived from the range tables. -/

/-- Neither U+2028 nor U+2029 belongs to the Asian class. -/
theorem sep_not_asian (c : Char) (h : isUnicodeSeparator c = true) :
    isAsian c = false := by
  simp only [isUnicodeSeparator, Bool.or_eq_true, decide_eq_true_eq] at h
  rw [Bool.eq_false_iff]
  intro ha
  simp only [isAsian, inRanges, hanRanges, hiraganaRanges, katakanaRanges,
    hangulRanges, bopomofoRanges, asianBlockRanges, List.any_cons,
    List.any_nil, Bool.or_eq_true, Bool.and_eq_true, decide_eq_true_eq,
    Bool.or_false, Bool.false_eq_true, or_false] at ha
  omega

/-- U+2028 and U+2029 belong to the class of the regex `\s`. -/
theorem sep_regexSpace (c : Char) (h : isUnicodeSeparator c = true) :
    isRegexSpace c = true := by
  simp only [isUnicodeSeparator, Bool.or_eq_true, decide_eq_true_eq] at h
  simp only [isRegexSpace, Bool.or_eq_true, decide_eq_true_eq]
  omega

/-- Neither U+2028 nor U+2029 belongs to the `SPACES` class. -/
theorem sep_not_spacesChar (c : Char) (h : isUnicodeSeparator c = true) :
    isSpacesChar c = false := by
  simp only [isUnicodeSeparator, Bool.or_eq_true, decide_eq_true_eq] at h
  rw [Bool.eq_false_iff]
  intro ha
  simp only [isSpacesChar, inRanges, zsRanges, List.any_cons, List.any_nil,
    Bool.or_eq_true, Bool.and_eq_true, decide_eq_true_eq, Bool.or_false,
    Bool.false_eq_true, or_false] at ha
  omega

/-- Neither U+2028 nor U+2029 belongs to the `BREAKS` class. -/
theorem sep_not_break (c : Char) (h : isUnicodeSeparator c = true) :
    isBreakChar c = false := by
  simp only [isUnicodeSeparator, Bool.or_eq_true, decide_eq_true_eq] at h
  rw [Bool.eq_false_iff]
  intro ha
  simp only [isBreakChar, Bool.or_eq_true, decide_eq_true_eq] at ha
  omega

/-- Neither U+2028 nor U+2029 belongs to the `CHAR_EXCLUDES` class. -/
theorem sep_not_exclude (c : Char) (h : isUnicodeSeparator c = true) :
    isCharExclude c = false := by
  simp only [isUnicodeSeparator, Bool.or_eq_true, decide_eq_true_eq] at h
  rw [Bool.eq_false_iff]
  intro ha
  simp only [isCharExclude, Bool.or_eq_true, Bool.and_eq_true,
    decide_eq_true_eq] at ha
  omega

/-- No excluded mark belongs to the Asian class. -/
theorem exclude_not_asian (c : Char) (h : isCharExclude c = true) :
    isAsian c = false := by
  simp only [isCharExclude, Bool.or_eq_true, Bool.and_eq_true,
    decide_eq_true_eq] at h
  rw [Bool.eq_false_iff]
  intro ha
  simp only [isAsian, inRanges, hanRanges, hiraganaRanges, katakanaRanges,
    hangulRanges, bopomofoRanges, asianBlockRanges, List.any_cons,
    List.any_nil, Bool.or_eq_true, Bool.and_eq_true, decide_eq_true_eq,
    Bool.or_false, Bool.false_eq_true, or_false] at ha
  omega

/-- Carriage return and line feed belong to the `SPACES` class. -/
theorem break_spacesChar (c : Char) (h : isBreakChar c = true) :
    isSpacesChar c = true := by
  simp only [isBreakChar, Bool.or_eq_true, decide_eq_true_eq] at h
  simp only [isSpacesChar, Bool.or_eq_true, decide_eq_true_eq,
    Bool.and_eq_true]
  omega

/-!  Counting helpers for the character-count functions. -/

/-- `count_characters` as a single scan. -/
theorem count_characters_eq_countP (t : List Char) :
    count_characters t =
      t.countP (fun c => !isCharExclude c && !isSpacesChar c) := by
  rw [count_characters, List.filter_filter, ← List.countP_eq_length_filter]

/-- `count_characters_with_space` as a single scan. -/
theorem count_characters_with_space_eq_countP (t : List Char) :
    count_characters_with_space t =
      t.countP (fun c => !isCharExclude c && !isBreakChar c) := by
  rw [count_characters_with_space, List.filter_filter,
    ← List.countP_eq_length_filter]

/-- Unfolding lemma for record addition. -/
theorem Statistics.add_def (a b : Statistics) :
    a + b =
      ⟨a.words + b.words,
       a.characters_no_space + b.characters_no_space,
       a.characters_with_space + b.characters_with_space,
       a.non_asian_words + b.non_asian_words,
       a.asian_characters + b.asian_characters⟩ :=
  rfl

/-!  Claim theorems. -/

/-- C1: for every text, the `words` field of `calculate_word_statistics`
equals `non_asian_words + asian_characters` plus the number of occurrences
of U+2028 or U+2029 in the text, and `count_words` equals that same sum. -/
theorem c1_words_invariant (t : List Char) :
    (calculate_word_statistics t).words =
      (calculate_word_statistics t).non_asian_words +
        (calculate_word_statistics t).asian_characters +
        (t.countP isUnicodeSeparator : Int) ∧
    (count_words t : Int) =
      (calculate_word_statistics t).non_asian_words +
        (calculate_word_statistics t).asian_characters +
        (t.countP isUnicodeSeparator : Int) := by
  constructor <;>
    · simp only [calculate_word_statistics, count_words, separatorWords]
      push_cast
      ring

/-- C2 counterexample: the claim describes the non-Asian-word scan as
excluding only the `SPACES` whitespace set (Zs, tab, newline, CR, FF, VT),
but the source pattern excludes the regex whitespace class `\s`, which also
contains U+2028.  On the one-character text U+2028 the claim's description
yields one non-Asian word while the code yields zero. -/
theorem c2_counterexample :
    nonAsianWords [Char.ofNat 0x2028] = 0 ∧
    specNonAsianWords [Char.ofNat 0x2028] = 1 ∧
    isAsian (Char.ofNat 0x2028) = false ∧
    isSpacesChar (Char.ofNat 0x2028) = false := by
  decide

/-- C2 (amended): `asian_characters` is the sum of the lengths of the
maximal runs of Asian-class characters (equivalently the total number of
Asian characters), and `non_asian_words` is the number of maximal runs of
characters that are neither Asian nor in the regex whitespace class `\s`
(Unicode White_Space, i.e. Zs, tab, newline, CR, FF, VT plus U+0085,
U+2028, U+2029); the Asian class contains U+30FB and U+30FC but not the
Enclosed Alphanumerics (circled digits). -/
theorem c2_run_decomposition (t : List Char) :
    asianCharacters t = (runLengths isAsian t).sum ∧
    asianCharacters t = t.countP isAsian ∧
    nonAsianWords t =
      (runLengths (fun c => !isAsian c && !isRegexSpace c) t).length ∧
    isAsian (Char.ofNat 0x30FB) = true ∧
    isAsian (Char.ofNat 0x30FC) = true ∧
    isAsian (Char.ofNat 0x2460) = false :=
  ⟨rfl, asianCharacters_eq_countP t, rfl, by decide, by decide, by decide⟩

/-- C3: `count_characters` counts the code points remaining after removing
the whitespace-set characters and then the excluded marks, and
`count_characters_with_space` those remaining after removing only CR/LF
and then the excluded marks; zero-width joiner U+200D and non-joiner
U+200C are ordinary characters for both counts. -/
theorem c3_character_count_scans (t : List Char) :
    count_characters t =
      ((t.filter (fun c => !isSpacesChar c)).filter
        (fun c => !isCharExclude c)).length ∧
    count_characters t =
      t.countP (fun c => !isCharExclude c && !isSpacesChar c) ∧
    count_characters_with_space t =
      ((t.filter (fun c => !isBreakChar c)).filter
        (fun c => !isCharExclude c)).length ∧
    count_characters_with_space t =
      t.countP (fun c => !isCharExclude c && !isBreakChar c) ∧
    isCharExclude (Char.ofNat 0x200C) = false ∧
    isCharExclude (Char.ofNat 0x200D) = false ∧
    isSpacesChar (Char.ofNat 0x200C) = false ∧
    isSpacesChar (Char.ofNat 0x200D) = false :=
  ⟨rfl, count_characters_eq_countP t, rfl,
   count_characters_with_space_eq_countP t,
   by decide, by decide, by decide, by decide⟩

/-- C4 counterexample: the claim says appending U+2028 leaves both
character counts unchanged, but U+2028 is neither in the `SPACES` class
(it is not Zs) nor in `CHAR_EXCLUDES`, so it is counted as a character:
appending it to "a" raises both character counts from 1 to 2. -/
theorem c4_counterexample :
    count_characters (['a'] ++ [Char.ofNat 0x2028]) = 2 ∧
    count_characters ['a'] = 1 ∧
    count_characters_with_space (['a'] ++ [Char.ofNat 0x2028]) = 2 ∧
    count_characters_with_space ['a'] = 1 := by
  decide

/-- C4 (amended): appending one U+2028 or U+2029 to any text increases
`words` by exactly 1 and leaves `non_asian_words` and `asian_characters`
unchanged, but it also increases `characters_no_space` and
`characters_with_space` by exactly 1 each (the separator is counted both
as a word and as a character). -/
theorem c4_separator_append (t : List Char) (c : Char)
    (h : isUnicodeSeparator c = true) :
    count_words (t ++ [c]) = count_words t + 1 ∧
    nonAsianWords (t ++ [c]) = nonAsianWords t ∧
    asianCharacters (t ++ [c]) = asianCharacters t ∧
    count_characters (t ++ [c]) = count_characters t + 1 ∧
    count_characters_with_space (t ++ [c]) =
      count_characters_with_space t + 1 := by
  have hw : isNonAsianWordChar c = false := by
    simp [isNonAsianWordChar, sep_regexSpace c h]
  have hna : nonAsianWords (t ++ [c]) = nonAsianWords t := by
    unfold nonAsianWords runLengths
    rw [runLengthsAux_append_notP isNonAsianWordChar c hw t 0]
  have hac : asianCharacters (t ++ [c]) = asianCharacters t := by
    rw [asianCharacters_eq_countP, asianCharacters_eq_countP,
      List.countP_append]
    simp [List.countP_cons, sep_not_asian c h]
  have hsep : separatorWords (t ++ [c]) = separatorWords t + 1 := by
    simp [separatorWords, List.countP_append, List.countP_cons, h]
  have hcc : count_characters (t ++ [c]) = count_characters t + 1 := by
    rw [count_characters_eq_countP, count_characters_eq_countP,
      List.countP_append]
    simp [List.countP_cons, sep_not_exclude c h, sep_not_spacesChar c h]
  have hcw : count_characters_with_space (t ++ [c]) =
      count_characters_with_space t + 1 := by
    rw [count_characters_with_space_eq_countP,
      count_characters_with_space_eq_countP, List.countP_append]
    simp [List.countP_cons, sep_not_exclude c h, sep_not_break c h]
  refine ⟨?_, hna, hac, hcc, hcw⟩
  simp only [count_words, hna, hac, hsep]
  omega

/-- Witness for `c4_separator_append` at the text "a" and U+2028. -/
theorem c4_separator_append_witness :
    isUnicodeSeparator (Char.ofNat 0x2028) = true ∧
    count_words (['a'] ++ [Char.ofNat 0x2028]) = count_words ['a'] + 1 :=
  ⟨by decide, (c4_separator_append ['a'] (Char.ofNat 0x2028) (by decide)).1⟩

/-- C5 counterexample: inserting the excluded mark U+FEFF into the empty
string changes `words` and `non_asian_words` from 0 to 1 — the mark is not
regex whitespace, so it forms a non-Asian word run of its own. -/
theorem c5_counterexample :
    isCharExclude (Char.ofNat 0xFEFF) = true ∧
    (calculate_word_statistics [Char.ofNat 0xFEFF]).non_asian_words = 1 ∧
    (calculate_word_statistics [Char.ofNat 0xFEFF]).words = 1 ∧
    (calculate_word_statistics []).non_asian_words = 0 ∧
    (calculate_word_statistics []).words = 0 := by
  decide

/-- C5 (amended): inserting an excluded mark anywhere in a string changes
neither `characters_no_space` nor `characters_with_space` nor
`asian_characters`; it can, however, change `non_asian_words` (and hence
`words`) by creating a new non-Asian word run, as when it is inserted into
the empty string. -/
theorem c5_exclude_insertion (u v : List Char) (c : Char)
    (h : isCharExclude c = true) :
    count_characters (u ++ c :: v) = count_characters (u ++ v) ∧
    count_characters_with_space (u ++ c :: v) =
      count_characters_with_space (u ++ v) ∧
    asianCharacters (u ++ c :: v) = asianCharacters (u ++ v) := by
  have ha : isAsian c = false := exclude_not_asian c h
  refine ⟨?_, ?_, ?_⟩
  · rw [count_characters_eq_countP, count_characters_eq_countP,
      List.countP_append, List.countP_append, List.countP_cons]
    simp [h]
  · rw [count_characters_with_space_eq_countP,
      count_characters_with_space_eq_countP, List.countP_append,
      List.countP_append, List.countP_cons]
    simp [h]
  · rw [asianCharacters_eq_countP, asianCharacters_eq_countP,
      List.countP_append, List.countP_append, List.countP_cons]
    simp [ha]

/-- Witness for `c5_exclude_insertion` at "ab" with U+200B inserted in the
middle. -/
theorem c5_exclude_insertion_witness :
    isCharExclude (Char.ofNat 0x200B) = true ∧
    count_characters (['a'] ++ Char.ofNat 0x200B :: ['b']) =
      count_characters (['a'] ++ ['b']) :=
  ⟨by decide,
   (c5_exclude_insertion ['a'] ['b'] (Char.ofNat 0x200B) (by decide)).1⟩

/-- C6: `count_characters_with_space` dominates `count_characters`, with
equality whenever every whitespace-set character of the text is a carriage
return or line feed. -/
theorem c6_char_count_monotonicity (t : List Char) :
    count_characters t ≤ count_characters_with_space t ∧
    ((∀ c ∈ t, isSpacesChar c = true → isBreakChar c = true) →
      count_characters t = count_characters_with_space t) := by
  constructor
  · rw [count_characters_eq_countP, count_characters_with_space_eq_countP]
    apply List.countP_mono_left
    intro c _ hc
    simp only [Bool.and_eq_true, Bool.not_eq_true'] at hc ⊢
    refine ⟨hc.1, ?_⟩
    rw [Bool.eq_false_iff]
    intro hb
    rw [break_spacesChar c hb] at hc
    exact Bool.noConfusion hc.2
  · intro hall
    rw [count_characters_eq_countP, count_characters_with_space_eq_countP]
    apply List.countP_congr
    intro c hmem
    simp only [Bool.and_eq_true, Bool.not_eq_true']
    constructor
    · rintro ⟨h1, h2⟩
      refine ⟨h1, ?_⟩
      rw [Bool.eq_false_iff]
      intro hb
      rw [break_spacesChar c hb] at h2
      exact Bool.noConfusion h2
    · rintro ⟨h1, h2⟩
      refine ⟨h1, ?_⟩
      rw [Bool.eq_false_iff]
      intro hs
      rw [hall c hmem hs] at h2
      exact Bool.noConfusion h2

/-- Witness for `c6_char_count_monotonicity`: on a text whose only
whitespace is a line feed the two counts agree. -/
theorem c6_char_count_monotonicity_witness :
    count_characters ['a', '\n'] = count_characters_with_space ['a', '\n'] :=
  (c6_char_count_monotonicity ['a', '\n']).2 (by decide)

/-- C7: `calculate_word_statistics` is consistent with the standalone
accessors `count_words`, `count_characters` and
`count_characters_with_space`. -/
theorem c7_statistics_consistency (t : List Char) :
    (calculate_word_statistics t).words = (count_words t : Int) ∧
    (calculate_word_statistics t).characters_no_space =
      (count_characters t : Int) ∧
    (calculate_word_statistics t).characters_with_space =
      (count_characters_with_space t : Int) :=
  ⟨rfl, rfl, rfl⟩

/-- C8: `Statistics` addition is field-wise, commutative and associative,
and the all-zero record is a two-sided identity. -/
theorem c8_statistics_add (a b c : Statistics) :
    a + b = b + a ∧
    a + b + c = a + (b + c) ∧
    a + Statistics.zero = a ∧
    Statistics.zero + a = a := by
  cases a
  cases b
  cases c
  refine ⟨?_, ?_, ?_, ?_⟩ <;>
    · simp only [Statistics.add_def, Statistics.zero, Statistics.mk.injEq]
      refine ⟨?_, ?_, ?_, ?_, ?_⟩ <;> omega

/-- C9: the literal scenarios — the empty string yields the all-zero
record, "Hello 世界" yields words 3 with one non-Asian word and two Asian
characters, and the text space-tab-LF-CR-space yields zero words, zero
characters without space and three with space. -/
theorem c9_literal_scenarios :
    calculate_word_statistics [] = Statistics.zero ∧
    (calculate_word_statistics ['H', 'e', 'l', 'l', 'o', ' ', '世', '界']).words = 3 ∧
    (calculate_word_statistics
      ['H', 'e', 'l', 'l', 'o', ' ', '世', '界']).non_asian_words = 1 ∧
    (calculate_word_statistics
      ['H', 'e', 'l', 'l', 'o', ' ', '世', '界']).asian_characters = 2 ∧
    calculate_word_statistics [' ', '\t', '\n', '\r', ' '] =
      ⟨0, 0, 3, 0, 0⟩ := by
  decide

/-- C10: every metric of `calculate_word_statistics`, as well as each
standalone counting function, is non-negative and bounded by the number of
code points of the input. -/
theorem c10_metric_bounds (t : List Char) :
    count_words t ≤ t.length ∧
    count_characters t ≤ t.length ∧
    count_characters_with_space t ≤ t.length ∧
    (0 ≤ (calculate_word_statistics t).words ∧
      (calculate_word_statistics t).words ≤ (t.length : Int)) ∧
    (0 ≤ (calculate_word_statistics t).characters_no_space ∧
      (calculate_word_statistics t).characters_no_space ≤ (t.length : Int)) ∧
    (0 ≤ (calculate_word_statistics t).characters_with_space ∧
      (calculate_word_statistics t).characters_with_space ≤ (t.length : Int)) ∧
    (0 ≤ (calculate_word_statistics t).non_asian_words ∧
      (calculate_word_statistics t).non_asian_words ≤ (t.length : Int)) ∧
    (0 ≤ (calculate_word_statistics t).asian_characters ∧
      (calculate_word_statistics t).asian_characters ≤ (t.length : Int)) := by
  have hpq : ∀ c, isNonAsianWordChar c = true → isAsian c = false := by
    intro c hc
    simp only [isNonAsianWordChar, Bool.and_eq_true, Bool.not_eq_true'] at hc
    exact hc.1
  have hpr : ∀ c, isNonAsianWordChar c = true →
      isUnicodeSeparator c = false := by
    intro c hc
    simp only [isNonAsianWordChar, Bool.and_eq_true, Bool.not_eq_true'] at hc
    rw [Bool.eq_false_iff]
    intro hs
    rw [sep_regexSpace c hs] at hc
    exact Bool.noConfusion hc.2
  have hqr : ∀ c, isAsian c = true → isUnicodeSeparator c = false := by
    intro c hc
    rw [Bool.eq_false_iff]
    intro hs
    rw [sep_not_asian c hs] at hc
    exact Bool.noConfusion hc
  have hsum := countP_three_disjoint_le isNonAsianWordChar isAsian
    isUnicodeSeparator hpq hpr hqr t
  have h1 : nonAsianWords t ≤ t.countP isNonAsianWordChar :=
    length_runLengths_le isNonAsianWordChar t
  have h2 : asianCharacters t = t.countP isAsian := asianCharacters_eq_countP t
  have hw : count_words t ≤ t.length := by
    simp only [count_words, separatorWords]
    omega
  have hc1 : count_characters t ≤ t.length := by
    rw [count_characters_eq_countP]
    exact List.countP_le_length _
  have hc2 : count_characters_with_space t ≤ t.length := by
    rw [count_characters_with_space_eq_countP]
    exact List.countP_le_length _
  have hna : nonAsianWords t ≤ t.length :=
    le_trans h1 (List.countP_le_length _)
  have has : asianCharacters t ≤ t.length := by
    rw [h2]
    exact List.countP_le_length _
  refine ⟨hw, hc1, hc2, ⟨?_, ?_⟩, ⟨?_, ?_⟩, ⟨?_, ?_⟩, ⟨?_, ?_⟩, ⟨?_, ?_⟩⟩ <;>
    simp only [calculate_word_statistics] <;>
    first
      | exact Int.natCast_nonneg _
      | exact_mod_cast hw
      | exact_mod_cast hc1
      | exact_mod_cast hc2
      | exact_mod_cast hna
      | exact_mod_cast has

end WordCount

